import Mathlib

/-!
Verification of the lotus compiler front end (parser, type verifier,
IR lowering) against its specification.  The definitions below are a
shallow embedding of the Go sources: `parser/parser.go` (the typed
parser), the `parser` package's type verifier (`Type.Verify`,
`verifyInt32`, `verifyString`), `internal/source/source.go`, `main.go`
and the integer-literal lowering of `ir/llvm/llvm.go`.  Tokenization is
an upstream collaborator (spec section 1); parser inputs are given as
token lists matching the token-source contract.
-/

namespace Lotus

/-- The `Type` enumeration of the parser package (`Void`, `Int32`,
`String`, `Float32`).  Named `Ty` because `Type` is reserved in Lean;
the zero value (Go default) is `void`. -/
inductive Ty where
  | void
  | int32
  | string
  | float32
  deriving DecidableEq, Repr

/-- AST expression nodes of the parser package.  `nilExp` stands for a
nil Go `Expression` interface value (the parser returns and stores nil
expressions on some paths).  `floatLiteral` keeps the literal text: the
`strconv.ParseFloat` conversion of `parseFloatLiteral` is not modelled,
no claim depends on the numeric value of a float literal. -/
inductive Expression where
  | nilExp
  | unboundedIdentifier (value : String)
  | identifier (value : String) (type : Ty)
  | stringLiteral (value : String)
  | integerLiteral (value : Int)
  | floatLiteral (literal : String)
  | infixExpression (left : Expression) (operator : String) (right : Expression)
  | prefixExpression (operator : String) (right : Expression)
  | fnCall (fnName : String) (params : List Expression)
  deriving Repr

/-- The error text of `ErrWrongTypeAssigment` in the source. -/
def wrongTypeMsg : String := "wrong type assignment"

/-- Go `strings.ContainsAny s chars`: does `s` contain at least one of
the characters in `chars`? -/
def containsAnyOf (s : String) (chars : List Char) : Bool :=
  s.data.any (fun c => chars.contains c)

/-- `verifyInt32` from the parser package: the `Int32` verification
rule.  Returns `none` on success and `some msg` for the error `msg`,
mirroring the Go `error` result. -/
def verifyInt32 : Expression → Option String
  | .identifier _ t => if t = Ty.int32 then none else some wrongTypeMsg
  | .integerLiteral _ => none
  | .infixExpression l op r =>
    match verifyInt32 l with
    | some e => some e
    | none =>
      if !containsAnyOf op ['+', '-', '*', '/'] then
        some "int32 allowed infix operators: + - * /"
      else
        match verifyInt32 r with
        | some e => some e
        | none => none
  | .prefixExpression op r =>
    if op = "~" || op = "++" || op = "--" then
      some "int32 allowed prefix operators: ~ ++ --"
    else
      match verifyInt32 r with
      | some e => some e
      | none => none
  | _ => some wrongTypeMsg

/-- `verifyString` from the parser package: the `String` verification
rule (only `+`, concatenation, is a legal operator). -/
def verifyString : Expression → Option String
  | .identifier _ t => if t = Ty.string then none else some wrongTypeMsg
  | .stringLiteral _ => none
  | .infixExpression l op r =>
    match verifyString l with
    | some e => some e
    | none =>
      if op ≠ "+" then
        some "string allowed infix operators: + (concatenation)"
      else
        match verifyString r with
        | some e => some e
        | none => none
  | _ => some wrongTypeMsg

/-- `Type.Verify` from the parser package: dispatches on the required
type; `Void` always succeeds, every type outside the three handled
cases (that is, `Float32`) falls to the generic error. -/
def Ty.Verify : Ty → Expression → Option String
  | .int32, st => verifyInt32 st
  | .string, st => verifyString st
  | .void, _ => none
  | _, _ => some wrongTypeMsg

/-- The `Int32` acceptance rule as claim C4 words it: an infix
expression is accepted only when its operator is exactly one of the
four strings `+`, `-`, `*`, `/`. -/
def int32SpecAccepts : Expression → Bool
  | .identifier _ t => t = Ty.int32
  | .integerLiteral _ => true
  | .infixExpression l op r =>
    int32SpecAccepts l && (op = "+" || op = "-" || op = "*" || op = "/") && int32SpecAccepts r
  | .prefixExpression op r =>
    !(op = "~" || op = "++" || op = "--") && int32SpecAccepts r
  | _ => false

/-- The `Int32` acceptance rule as the code has it: the infix operator
test is `strings.ContainsAny(op, "+-*/")` (the operator string must
contain at least one of the four characters), not equality with one of
the four operator strings. -/
def int32CodeAccepts : Expression → Bool
  | .identifier _ t => t = Ty.int32
  | .integerLiteral _ => true
  | .infixExpression l op r =>
    int32CodeAccepts l && containsAnyOf op ['+', '-', '*', '/'] && int32CodeAccepts r
  | .prefixExpression op r =>
    !(op = "~" || op = "++" || op = "--") && int32CodeAccepts r
  | _ => false

/-! ## Token model

The token kinds referenced by the typed parser.  The lexer sources in
the repository predate the `STRING`, `COLON` and `RAWTYPE` kinds the
parser dispatches on; tokenization itself is an upstream collaborator
(spec sections 1 and 4.1), so parser inputs below are token lists. -/

inductive TokenType where
  | ILLEGAL
  | EOF
  | VAR
  | IDENT
  | INT
  | ASSIGN
  | PLUS
  | MINUS
  | STAR
  | SLASH
  | MAIN
  | FN
  | CONTINUE
  | IF
  | BREAK
  | LBRACE
  | RBRACE
  | LPAREN
  | RPAREN
  | FLOAT
  | SEMICOLON
  | NEXTLINE
  | RETURN
  | COMMA
  | STRING
  | COLON
  | RAWTYPE
  deriving DecidableEq, Repr

/-- A lexical token: kind, literal text and source position. -/
structure Token where
  type : TokenType
  literal : String
  line : Int
  column : Int
  deriving DecidableEq, Repr

/-- Rendering of a token kind, as used in `expected:/got:` parse error
messages (the generated `TokenType.String` method). -/
def ttStr : TokenType → String
  | .ILLEGAL => "ILLEGAL"
  | .EOF => "EOF"
  | .VAR => "VAR"
  | .IDENT => "IDENT"
  | .INT => "INT"
  | .ASSIGN => "ASSIGN"
  | .PLUS => "PLUS"
  | .MINUS => "MINUS"
  | .STAR => "STAR"
  | .SLASH => "SLASH"
  | .MAIN => "MAIN"
  | .FN => "FN"
  | .CONTINUE => "CONTINUE"
  | .IF => "IF"
  | .BREAK => "BREAK"
  | .LBRACE => "LBRACE"
  | .RBRACE => "RBRACE"
  | .LPAREN => "LPAREN"
  | .RPAREN => "RPAREN"
  | .FLOAT => "FLOAT"
  | .SEMICOLON => "SEMICOLON"
  | .NEXTLINE => "NEXTLINE"
  | .RETURN => "RETURN"
  | .COMMA => "COMMA"
  | .STRING => "STRING"
  | .COLON => "COLON"
  | .RAWTYPE => "RAWTYPE"

/-! ## AST statements and tables -/

/-- A declared function parameter (`Argument` in the source). -/
structure Argument where
  name : String
  type : Ty
  deriving Repr

/-- A `var` declaration.  `value` may be `Expression.nilExp`: the
parser stores a nil expression when the initializer position does not
start an expression. -/
structure VarStatement where
  name : String
  value : Expression
  type : Ty
  deriving Repr

/-- Reassignment of an already declared variable. -/
structure ReassignVarStatement where
  varName : String
  type : Ty
  value : Expression
  deriving Repr

/-- A `return` statement with its resolved type context. -/
structure ReturnStatement where
  type : Ty
  value : Expression
  deriving Repr

mutual
/-- Statement-level AST nodes (Go's `Node`); `callS` is a function call
used as a standalone statement. -/
inductive Node where
  | varS (s : VarStatement)
  | reassignS (s : ReassignVarStatement)
  | fnS (s : FnStatement)
  | returnS (s : ReturnStatement)
  | callS (e : Expression)
/-- A function declaration or forward-reference placeholder.  Field
order and defaults follow the Go struct: `Defined` is `false` in a
fresh record unless assigned (the source never assigns it). -/
inductive FnStatement where
  | mk (name : String) (args : List Argument) (body : List Node) (returnType : Ty)
      (defined : Bool) (expressionsToEvaluate : List Expression)
end

deriving instance Repr for Node, FnStatement

def FnStatement.name : FnStatement → String
  | .mk n _ _ _ _ _ => n

def FnStatement.args : FnStatement → List Argument
  | .mk _ a _ _ _ _ => a

def FnStatement.body : FnStatement → List Node
  | .mk _ _ b _ _ _ => b

def FnStatement.returnType : FnStatement → Ty
  | .mk _ _ _ r _ _ => r

def FnStatement.defined : FnStatement → Bool
  | .mk _ _ _ _ d _ => d

def FnStatement.expressionsToEvaluate : FnStatement → List Expression
  | .mk _ _ _ _ _ es => es

/-- Assignment to the `ExpressionsToEvaluate` field. -/
def FnStatement.withExpressionsToEvaluate : FnStatement → List Expression → FnStatement
  | .mk n a b r d _, es => .mk n a b r d es

/-- The parsed program: an ordered list of top-level statements. -/
structure Program where
  statements : List Node

/-- Lookup in a Go `map[string]V`, modelled as an association list. -/
def lookupA {α : Type} (k : String) : List (String × α) → Option α
  | [] => none
  | (k', v) :: rest => if k' = k then some v else lookupA k rest

/-- Map assignment `m[k] = v`: replace the binding or append it. -/
def insertA {α : Type} (k : String) (v : α) : List (String × α) → List (String × α)
  | [] => [(k, v)]
  | (k', v') :: rest => if k' = k then (k, v) :: rest else (k', v') :: insertA k v rest

/-! ## Parser state and primitive steps -/

/-- Errors aborting a parse: positioned `ErrParser` values, Go runtime
panics (nil dereference, the `getTypeFromLiteral` panic), and
exhaustion of the recursion fuel of this embedding. -/
inductive PError where
  | errParser (line column : Int) (msg : String)
  | goPanic (msg : String)
  | outOfFuel
  deriving DecidableEq, Repr

/-- Did a parse step fail? -/
def isErr {α : Type} : Except PError α → Bool
  | .error _ => true
  | .ok _ => false

/-- Rendering of an error, for the places where Go wraps an inner
error's text into a new `ErrParser`. -/
def errMsg : PError → String
  | .errParser l c m => "Error at line " ++ toString l ++ ", column " ++ toString c ++ ": " ++ m
  | .goPanic m => m
  | .outOfFuel => "out of fuel"

/-- The parser: remaining token stream, the two-token lookahead window
and the two symbol tables. -/
structure PState where
  toks : List Token
  curToken : Token
  peekToken : Token
  vars : List (String × VarStatement)
  fns : List (String × FnStatement)
  deriving Repr

/-- Go's zero `Token` value (fields default-initialized). -/
def zeroToken : Token := ⟨.ILLEGAL, "", 0, 0⟩

/-- The token `Token{Type: EOF}` substituted once the stream is
exhausted. -/
def eofToken : Token := ⟨.EOF, "", 0, 0⟩

/-- `Parser.nextToken`: shift the window; after the current token
becomes EOF nothing more is pulled. -/
def nextToken (s : PState) : PState :=
  let s1 : PState := { s with curToken := s.peekToken }
  if s1.curToken.type = .EOF then s1
  else
    match s1.toks with
    | t :: rest => { s1 with peekToken := t, toks := rest }
    | [] => { s1 with peekToken := eofToken }

/-- `Parser.consumeOrFail`: advance and require the new current token
kind. -/
def consumeOrFail (expected : TokenType) (s : PState) : Except PError PState :=
  let s := nextToken s
  if s.curToken.type = expected then .ok s
  else .error (.errParser s.curToken.line s.curToken.column
    ("expected: " ++ ttStr expected ++ ", got: " ++ ttStr s.curToken.type))

/-- A statement terminator: `;`, newline or end of input. -/
def endOfStatement (t : TokenType) : Bool :=
  t = .SEMICOLON || t = .NEXTLINE || t = .EOF

/-- The lowest expression precedence (the `LOWEST` constant). -/
def LOWEST : Nat := 1

/-- The fixed `precedences` table with the `LOWEST` default:
`+ -` map to SUM (2), `* /` to PRODUCT (3), `(` to CALL (5). -/
def precedenceOf : TokenType → Nat
  | .PLUS => 2
  | .MINUS => 2
  | .SLASH => 3
  | .STAR => 3
  | .LPAREN => 5
  | _ => 1

/-- `Parser.peekTokenIs`. -/
def peekTokenIs (t : TokenType) (s : PState) : Bool := s.peekToken.type = t

/-- `getTypeFromLiteral`: only the two surface type names exist; any
other literal hits the `panic("unreacheable")`. -/
def getTypeFromLiteral (lit : String) : Except PError Ty :=
  if lit = "int32" then .ok .int32
  else if lit = "string" then .ok .string
  else .error (.goPanic "unreacheable")

/-- Decimal value of a digit run. -/
def digitsVal (cs : List Char) : Nat :=
  cs.foldl (fun acc c => acc * 10 + (c.toNat - 48)) 0

/-- Modelled from the Go standard library: `strconv.ParseInt(lit, 10, 64)`
on the literals the token source produces.  Returns the parsed value
together with an error flag; a value above the int64 range is clamped
to `2^63 - 1` with the flag set (range error), a non-digit literal
yields `0` with the flag set (syntax error). -/
def goParseInt64 (s : String) : Int × Bool :=
  if s.data ≠ [] ∧ s.data.all Char.isDigit then
    let n := digitsVal s.data
    if n > 2 ^ 63 - 1 then ((2 : Int) ^ 63 - 1, true) else ((n : Int), false)
  else (0, true)

/-- `parseIntegerLiteral`: the conversion error is discarded
(`value, _ := strconv.ParseInt(...)`), so this step is total. -/
def parseIntegerLiteral (lit : String) : Expression :=
  Expression.integerLiteral (goParseInt64 lit).1

/-- `parseFloatLiteral`; the float64 conversion itself is not modelled
(see `Expression.floatLiteral`). -/
def parseFloatLiteral (lit : String) : Expression :=
  Expression.floatLiteral lit

/-- The message of a Go nil-pointer dereference panic. -/
def nilDerefMsg : String := "runtime error: invalid memory address or nil pointer dereference"

/-- The guard at the top of `parseFnStatement`: is the name recorded
with `Defined` true? -/
def fnAlreadyDefined (fns : List (String × FnStatement)) (name : String) : Bool :=
  match lookupA name fns with
  | some f => f.defined
  | none => false

/-- Default for positional access into an argument list (the Go code
indexes only within bounds). -/
def defaultArgument : Argument := ⟨"", .void⟩

/-- The per-argument loop of the forward-reference reconciliation:
each declared argument's type must verify the expression captured at
the call site; a missing expression would be a Go index panic (the
length check precedes this loop). -/
def verifyArgsAgainst (l c : Int) : List Argument → List Expression → Option PError
  | [], _ => none
  | a :: as, e :: es =>
    match Ty.Verify a.type e with
    | some m => some (.errParser l c m)
    | none => verifyArgsAgainst l c as es
  | _ :: _, [] => some (.goPanic "index out of range")

/-- The forward-reference reconciliation block of `parseFnStatement`
(source lines 743-763): when a placeholder with the same name exists
and is not yet defined, the captured expression count must equal the
declared argument count and each captured expression must verify
against the declared argument type. -/
def checkForwardRef (fns : List (String × FnStatement)) (name : String)
    (args : List Argument) (l c : Int) : Option PError :=
  match lookupA name fns with
  | none => none
  | some f =>
    if f.defined then none
    else if f.expressionsToEvaluate.length ≠ args.length then
      some (.errParser l c "number of provided params do not match number of defined arguments")
    else verifyArgsAgainst l c args f.expressionsToEvaluate

/-- The optional `: <rawtype>` return annotation of a declaration;
yields `mustHaveReturn` and the declared type (`Void`, the zero value,
when absent). -/
def parseOptReturnType (s : PState) : Except PError (Bool × Ty × PState) :=
  if s.peekToken.type = .COLON then
    match consumeOrFail .RAWTYPE (nextToken s) with
    | .error e => .error e
    | .ok s =>
      match getTypeFromLiteral s.curToken.literal with
      | .error e => .error e
      | .ok t => .ok (true, t, s)
  else .ok (false, .void, s)

/-- The return-enforcement block of `parseFnStatement` (source lines
800-825): with a declared return type the body must be non-empty, its
last statement must be a `ReturnStatement` and its type must equal the
declared one. -/
def enforceReturn (mustHaveReturn : Bool) (body : List Node) (returnType : Ty)
    (l c : Int) : Option PError :=
  if mustHaveReturn then
    match body.getLast? with
    | none => some (.errParser l c "function must have a return")
    | some (Node.returnS inner) =>
      if inner.type ≠ returnType then
        some (.errParser l c "function expected return type")
      else none
    | some _ => some (.errParser l c "function must have a return")
  else none

/-! ## The recursive-descent parser

A fuel parameter bounds the mutual recursion; every recursive call
spends one unit.  Exhaustion surfaces as the distinguished
`PError.outOfFuel` (never produced by the Go control flow, which
terminates on every finite token stream ending in EOF). -/

mutual

/-- The statement loop of `ParseProgram`. -/
def parseProgramLoop (fuel : Nat) (s : PState) (acc : List Node) :
    Except PError (List Node × PState) :=
  match fuel with
  | 0 => .error .outOfFuel
  | fuel + 1 =>
    if s.curToken.type = .EOF then .ok (acc, s)
    else if s.curToken.type = .NEXTLINE then parseProgramLoop fuel (nextToken s) acc
    else
      match parseStatement fuel .void s with
      | .error e => .error e
      | .ok (stmt, s) => parseProgramLoop fuel (nextToken s) (acc ++ [stmt])

/-- `Parser.parseStatement`, dispatching on the current token kind;
`tt` is the type context threaded to `return` statements. -/
def parseStatement (fuel : Nat) (tt : Ty) (s : PState) :
    Except PError (Node × PState) :=
  match fuel with
  | 0 => .error .outOfFuel
  | fuel + 1 =>
    match s.curToken.type with
    | .VAR =>
      match parseVarStatement fuel s with
      | .error e => .error e
      | .ok (v, s) => .ok (.varS v, s)
    | .FN =>
      match parseFnStatement fuel s with
      | .error e => .error e
      | .ok (f, s) => .ok (.fnS f, s)
    | .RETURN =>
      match parseReturnStatement fuel tt s with
      | .error e => .error e
      | .ok (r, s) => .ok (.returnS r, s)
    | .IDENT =>
      match lookupA s.curToken.literal s.vars with
      | some varStmt =>
        match parseReasignStatement fuel varStmt s with
        | .error e => .error e
        | .ok (r, s) => .ok (.reassignS r, s)
      | none =>
        let ident := Expression.unboundedIdentifier s.curToken.literal
        match consumeOrFail .LPAREN s with
        | .error e => .error e
        | .ok s =>
          match parseFnCallExpression fuel ident .void (nextToken s) with
          | .error e => .error e
          | .ok (expr, s) =>
            let s := nextToken s
            if endOfStatement s.curToken.type then .ok (.callS expr, s)
            else .error (.errParser s.curToken.line
              (s.curToken.column + (s.curToken.literal.length : Int))
              ("after " ++ s.curToken.literal ++ ": expected end of statement or new line"))
    | _ => .error (.errParser s.curToken.line s.curToken.column
        ("unexpected token: " ++ s.curToken.literal))

/-- `Parser.parseVarStatement`: name, optional `: <rawtype>`
annotation, `=`, initializer expression, terminator; on success the
statement is registered in the variable table. -/
def parseVarStatement (fuel : Nat) (s : PState) :
    Except PError (VarStatement × PState) :=
  match fuel with
  | 0 => .error .outOfFuel
  | fuel + 1 =>
    match consumeOrFail .IDENT s with
    | .error e => .error e
    | .ok s =>
      let name := s.curToken.literal
      let tyRes : Except PError (Ty × PState) :=
        if s.peekToken.type = .COLON then
          match consumeOrFail .RAWTYPE (nextToken s) with
          | .error e => .error e
          | .ok s =>
            match getTypeFromLiteral s.curToken.literal with
            | .error e => .error e
            | .ok t => .ok (t, s)
        else .ok (.void, s)
      match tyRes with
      | .error e => .error e
      | .ok (vty, s) =>
        match consumeOrFail .ASSIGN s with
        | .error e => .error e
        | .ok s =>
          match parseExpression fuel LOWEST vty (nextToken s) with
          | .error e => .error e
          | .ok (value, s) =>
            if endOfStatement s.peekToken.type then
              let stmt : VarStatement := ⟨name, value, vty⟩
              .ok (stmt, nextToken { s with vars := insertA name stmt s.vars })
            else .error (.errParser s.curToken.line
              (s.curToken.column + (s.curToken.literal.length : Int))
              ("after " ++ s.curToken.literal ++ ": expected end of statement or new line"))

/-- `Parser.parseReasignStatement`: `=` and a new value checked
against the variable's declared type; a failure of the value parse is
re-wrapped in a positioned error. -/
def parseReasignStatement (fuel : Nat) (old : VarStatement) (s : PState) :
    Except PError (ReassignVarStatement × PState) :=
  match fuel with
  | 0 => .error .outOfFuel
  | fuel + 1 =>
    match consumeOrFail .ASSIGN s with
    | .error e => .error e
    | .ok s =>
      match parseExpression fuel LOWEST old.type (nextToken s) with
      | .error e => .error (.errParser s.curToken.line
          (s.curToken.column + (s.curToken.literal.length : Int)) (errMsg e))
      | .ok (newExp, s) =>
        if endOfStatement s.peekToken.type then
          .ok (⟨old.name, old.type, newExp⟩, nextToken s)
        else .error (.errParser s.curToken.line
          (s.curToken.column + (s.curToken.literal.length : Int))
          ("after " ++ s.curToken.literal ++ ": expected end of statement or new line"))

/-- `Parser.parseFnStatement`: redefinition guard, argument list,
forward-reference reconciliation, optional return type, body, return
enforcement, and finally the record stored in the function table.  As
in the source, the stored record's `Defined` flag is the zero value
`false` (no assignment to it exists) and its
`ExpressionsToEvaluate` list is empty. -/
def parseFnStatement (fuel : Nat) (s : PState) :
    Except PError (FnStatement × PState) :=
  match fuel with
  | 0 => .error .outOfFuel
  | fuel + 1 =>
    match consumeOrFail .IDENT s with
    | .error e => .error e
    | .ok s =>
      let name := s.curToken.literal
      if fnAlreadyDefined s.fns name then
        .error (.errParser s.curToken.line s.curToken.column "function already defined")
      else
        match consumeOrFail .LPAREN s with
        | .error e => .error e
        | .ok s =>
          match parseFnArgsLoop fuel s [] with
          | .error e => .error e
          | .ok (args, s) =>
            match checkForwardRef s.fns name args s.curToken.line s.curToken.column with
            | some e => .error e
            | none =>
              match parseOptReturnType s with
              | .error e => .error e
              | .ok (mustHaveReturn, retTy, s) =>
                match consumeOrFail .LBRACE s with
                | .error e => .error e
                | .ok s =>
                  match parseFnBodyLoop fuel retTy (nextToken s) [] with
                  | .error e => .error e
                  | .ok (body, s) =>
                    match enforceReturn mustHaveReturn body retTy
                        s.curToken.line s.curToken.column with
                    | some e => .error e
                    | none =>
                      let stmt : FnStatement := .mk name args body retTy false []
                      .ok (stmt, { s with fns := insertA name stmt s.fns })

/-- The argument-list loop of `parseFnStatement` (source lines
709-741): a possibly-empty comma-separated list of `name : rawtype`
pairs closed by `)`. -/
def parseFnArgsLoop (fuel : Nat) (s : PState) (acc : List Argument) :
    Except PError (List Argument × PState) :=
  match fuel with
  | 0 => .error .outOfFuel
  | fuel + 1 =>
    if peekTokenIs .RPAREN s then .ok (acc, nextToken s)
    else
      match consumeOrFail .IDENT s with
      | .error e => .error e
      | .ok s =>
        let argName := s.curToken.literal
        match consumeOrFail .COLON s with
        | .error e => .error e
        | .ok s =>
          match consumeOrFail .RAWTYPE s with
          | .error e => .error e
          | .ok s =>
            match getTypeFromLiteral s.curToken.literal with
            | .error e => .error e
            | .ok t =>
              let acc := acc ++ [⟨argName, t⟩]
              if s.peekToken.type = .RPAREN then .ok (acc, nextToken s)
              else
                match consumeOrFail .COMMA s with
                | .error e => .error e
                | .ok s => parseFnArgsLoop fuel s acc

/-- The body loop of `parseFnStatement`: statements until `}`, with
newline tokens skipped and the return-type context threaded. -/
def parseFnBodyLoop (fuel : Nat) (retTy : Ty) (s : PState) (acc : List Node) :
    Except PError (List Node × PState) :=
  match fuel with
  | 0 => .error .outOfFuel
  | fuel + 1 =>
    if s.curToken.type = .RBRACE then .ok (acc, s)
    else if s.curToken.type = .NEXTLINE then parseFnBodyLoop fuel retTy (nextToken s) acc
    else
      match parseStatement fuel retTy s with
      | .error e => .error e
      | .ok (stmt, s) => parseFnBodyLoop fuel retTy (nextToken s) (acc ++ [stmt])

/-- `Parser.parseReturnStatement`: the value expression is checked
against the type context `tt`, which is also recorded as the
statement's resolved type. -/
def parseReturnStatement (fuel : Nat) (tt : Ty) (s : PState) :
    Except PError (ReturnStatement × PState) :=
  match fuel with
  | 0 => .error .outOfFuel
  | fuel + 1 =>
    match parseExpression fuel LOWEST tt (nextToken s) with
    | .error e => .error e
    | .ok (value, s) =>
      if endOfStatement s.peekToken.type then .ok (⟨tt, value⟩, nextToken s)
      else .error (.errParser s.curToken.line
        (s.curToken.column + (s.curToken.literal.length : Int))
        ("after " ++ s.curToken.literal ++ ": expected end of statement or new line"))

/-- `Parser.parseExpression` (Pratt climbing).  The primary switch: a
token that cannot begin an expression returns a nil expression with no
error (the Go `default: return nil, nil`); an identifier not bound in
the variable table hits the source's nil `varStmt` dereference — a Go
runtime panic, modelled as `PError.goPanic`.  After the operator loop
the result is verified against the type context `tt` (unless the
loop's unreachable default case returned early). -/
def parseExpression (fuel : Nat) (precedence : Nat) (tt : Ty) (s : PState) :
    Except PError (Expression × PState) :=
  match fuel with
  | 0 => .error .outOfFuel
  | fuel + 1 =>
    let prim : Except PError (Option (Expression × PState)) :=
      match s.curToken.type with
      | .INT => .ok (some (parseIntegerLiteral s.curToken.literal, s))
      | .STRING => .ok (some (.stringLiteral s.curToken.literal, s))
      | .FLOAT => .ok (some (parseFloatLiteral s.curToken.literal, s))
      | .IDENT =>
        match lookupA s.curToken.literal s.vars with
        | some varStmt => .ok (some (.identifier varStmt.name varStmt.type, s))
        | none => .error (.goPanic nilDerefMsg)
      | .LPAREN =>
        match parseGroupedExpression fuel tt s with
        | .error e => .error e
        | .ok (exp, s) => .ok (some (exp, s))
      | _ => .ok none
    match prim with
    | .error e => .error e
    | .ok none => .ok (.nilExp, s)
    | .ok (some (leftExp, s)) =>
      match parseExpLoop fuel leftExp precedence tt s with
      | .error e => .error e
      | .ok (exp, early, s) =>
        if early then .ok (exp, s)
        else
          match Ty.Verify tt exp with
          | some m => .error (.errParser s.curToken.line s.curToken.column
              ("verifying expression: " ++ m))
          | none => .ok (exp, s)

/-- The operator loop of `parseExpression`: while the peek token is
not `;` and binds tighter than `precedence`, extend the left
expression with an infix or call step.  The Boolean result marks the
loop's `default: return leftExp, nil` exit, which skips the final
`Verify` call (unreachable: only tokens with a precedence entry can
enter the loop). -/
def parseExpLoop (fuel : Nat) (leftExp : Expression) (precedence : Nat) (tt : Ty)
    (s : PState) : Except PError (Expression × Bool × PState) :=
  match fuel with
  | 0 => .error .outOfFuel
  | fuel + 1 =>
    if peekTokenIs .SEMICOLON s = false ∧ precedence < precedenceOf s.peekToken.type then
      match s.peekToken.type with
      | .PLUS | .MINUS | .SLASH | .STAR =>
        match parseInfixExpression fuel leftExp tt (nextToken s) with
        | .error e => .error e
        | .ok (exp, s) => parseExpLoop fuel exp precedence tt s
      | .LPAREN =>
        match parseFnCallExpression fuel leftExp tt (nextToken s) with
        | .error e => .error e
        | .ok (exp, s) => parseExpLoop fuel exp precedence tt s
      | _ => .ok (leftExp, true, s)
    else .ok (leftExp, false, s)

/-- `Parser.parseGroupedExpression`: parenthesized sub-expression,
re-entered at the lowest precedence, closed by `)`. -/
def parseGroupedExpression (fuel : Nat) (tt : Ty) (s : PState) :
    Except PError (Expression × PState) :=
  match fuel with
  | 0 => .error .outOfFuel
  | fuel + 1 =>
    match parseExpression fuel LOWEST tt (nextToken s) with
    | .error e => .error e
    | .ok (exp, s) =>
      match consumeOrFail .RPAREN s with
      | .error e => .error e
      | .ok s => .ok (exp, s)

/-- `Parser.parseInfixExpression`: right operand parsed at the
operator's own precedence. -/
def parseInfixExpression (fuel : Nat) (left : Expression) (tt : Ty) (s : PState) :
    Except PError (Expression × PState) :=
  match fuel with
  | 0 => .error .outOfFuel
  | fuel + 1 =>
    let op := s.curToken.literal
    let prec := precedenceOf s.curToken.type
    match parseExpression fuel prec tt (nextToken s) with
    | .error e => .error e
    | .ok (right, s) => .ok (.infixExpression left op right, s)

/-- `Parser.parseFnCallExpression`: the callee must be an
`UnboundedIdentifier`; with a known signature the arguments are parsed
against the declared parameter types positionally, otherwise they are
parsed untyped (context `Void`) and captured into a
`Defined=false` placeholder stored in the function table. -/
def parseFnCallExpression (fuel : Nat) (left : Expression) (tt : Ty) (s : PState) :
    Except PError (Expression × PState) :=
  match fuel with
  | 0 => .error .outOfFuel
  | fuel + 1 =>
    match left with
    | .unboundedIdentifier fnName =>
      match lookupA fnName s.fns with
      | some fnStmt =>
        if s.curToken.type = .RPAREN then .ok (.fnCall fnName [], nextToken s)
        else parseFnCallKnownLoop fuel fnName fnStmt.args 0
          (List.replicate fnStmt.args.length Expression.nilExp) s
      | none =>
        let fnStmt : FnStatement := .mk fnName [] [] tt false []
        if s.curToken.type = .RPAREN then
          let s := nextToken s
          .ok (.fnCall fnName [], { s with fns := insertA fnName fnStmt s.fns })
        else parseFnCallUnknownLoop fuel fnName fnStmt [] s
    | _ => .error (.errParser s.curToken.line s.curToken.column
        "expected function identifier")

/-- The call-argument loop when the callee's signature is known: the
parameter list is preallocated to the declared arity (unfilled slots
stay nil); each argument is parsed against the declared type, a parse
failure is replaced by a generic wrong-parameter error, and running
past the declared arity is the unexpected-end error. -/
def parseFnCallKnownLoop (fuel : Nat) (fnName : String) (fnArgs : List Argument)
    (idx : Nat) (params : List Expression) (s : PState) :
    Except PError (Expression × PState) :=
  match fuel with
  | 0 => .error .outOfFuel
  | fuel + 1 =>
    if idx < fnArgs.length then
      match parseExpression fuel LOWEST (fnArgs.getD idx defaultArgument).type s with
      | .error _ => .error (.errParser s.curToken.line s.curToken.column
          "wrong paramater type")
      | .ok (arg, s) =>
        let params := params.set idx arg
        if s.peekToken.type = .RPAREN then .ok (.fnCall fnName params, nextToken s)
        else
          match consumeOrFail .COMMA s with
          | .error e => .error e
          | .ok s => parseFnCallKnownLoop fuel fnName fnArgs (idx + 1) params s
    else .error (.errParser s.curToken.line s.curToken.column
        "function call unexpected end")

/-- The call-argument loop when the callee is unknown: arguments are
parsed with the `Void` context and, at the closing `)`, copied into
the placeholder's `ExpressionsToEvaluate` before it is stored. -/
def parseFnCallUnknownLoop (fuel : Nat) (fnName : String) (fnStmt : FnStatement)
    (acc : List Expression) (s : PState) : Except PError (Expression × PState) :=
  match fuel with
  | 0 => .error .outOfFuel
  | fuel + 1 =>
    match parseExpression fuel LOWEST .void s with
    | .error _ => .error (.errParser s.curToken.line s.curToken.column
        "wrong paramater type")
    | .ok (arg, s) =>
      let acc := acc ++ [arg]
      if s.peekToken.type = .RPAREN then
        let s := nextToken s
        .ok (.fnCall fnName acc,
          { s with fns := insertA fnName (fnStmt.withExpressionsToEvaluate acc) s.fns })
      else
        match consumeOrFail .COMMA s with
        | .error e => .error e
        | .ok s => parseFnCallUnknownLoop fuel fnName fnStmt acc s

end

/-- `NewParser`: both lookahead slots are filled by two `nextToken`
calls from the zero-valued window. -/
def newParserState (toks : List Token) : PState :=
  nextToken (nextToken ⟨toks, zeroToken, zeroToken, [], []⟩)

/-- `Parser.ParseProgram` on a token list. -/
def ParseProgram (fuel : Nat) (toks : List Token) : Except PError Program :=
  match parseProgramLoop fuel (newParserState toks) [] with
  | .error e => .error e
  | .ok (stmts, _) => .ok ⟨stmts⟩


/-! ## IR lowering of integer literals (ir/llvm/llvm.go) -/

/-- The Go conversion `uint64(v)` applied to an `int64` value:
reinterpretation modulo `2^64`. -/
def goUint64OfInt64 (v : Int) : Nat := ((v % (2 : Int) ^ 64)).toNat

/-- Modelled from the external `tinygo.org/x/go-llvm` collaborator:
`llvm.ConstInt` with the 32-bit integer type keeps the low 32 bits of
the supplied `uint64`. -/
def llvmConstIntI32 (n : Nat) : Nat := n % 2 ^ 32

/-- `generateExpression` on an `IntegerLiteral` emits
`llvm.ConstInt(Int32Type, uint64(expr.Value), false)`. -/
def generateIntegerLiteralConst (v : Int) : Nat := llvmConstIntI32 (goUint64OfInt64 v)

/-! ## Source files and the command surface
(internal/source/source.go and main.go).  The file system is passed as
a function from path to optional contents; `os.ReadFile` consults it. -/

/-- The `allowedExtensions` map: only `.lt` maps to true. -/
def allowedExtensions (ext : String) : Bool := ext = ".lt"

/-- Scan of the reversed character list for `filepath.Ext`:
stop empty-handed at a path separator, return the accumulated suffix
at the first dot. -/
def filepathExtGo : List Char → List Char → String
  | [], _ => ""
  | c :: rest, acc =>
    if c = '/' then ""
    else if c = '.' then String.mk (c :: acc)
    else filepathExtGo rest (c :: acc)

/-- Modelled from the Go standard library `path/filepath.Ext`: the
suffix starting at the final dot in the final path element, empty if
there is none. -/
def filepathExt (path : String) : String := filepathExtGo path.data.reverse []

/-- `source.SourceFile`. -/
structure SourceFile where
  source : String
  cursorAt : Nat
  path : String

/-- `source.FromFile`: the extension is checked before the file is
read, so a rejected path never touches the file system. -/
def FromFile (fs : String → Option String) (sourcePath : String) :
    Except String SourceFile :=
  let ext := filepathExt sourcePath
  if allowedExtensions ext then
    match fs sourcePath with
    | none => .error "read error"
    | some contents => .ok ⟨contents, 0, sourcePath⟩
  else .error ("file extension " ++ ext ++ " is not allowed")

/-- Outcomes of `main`: missing argument, unreadable file, parse
failure (diagnostic printed, no artifact), or a parsed program handed
to IR generation and written to `output.ll` (the LLVM steps after a
successful parse are summarized by `lowered`). -/
inductive MainResult where
  | usageMessage
  | readError
  | parseFailure (e : PError)
  | lowered (p : Program)

/-- `main` from main.go: reads `os.Args[1]` directly with
`os.ReadFile` — there is no extension check in this path — then lexes
(`tokenize` stands for the lexer collaborator) and parses. -/
def mainRun (args : List String) (fs : String → Option String)
    (tokenize : String → List Token) (fuel : Nat) : MainResult :=
  if args.length < 2 then .usageMessage
  else
    match fs (args.getD 1 "") with
    | none => .readError
    | some source =>
      match ParseProgram fuel (tokenize source) with
      | .error e => .parseFailure e
      | .ok prog => .lowered prog

/-! ## Concrete inputs used by the claims.
Token lists correspond to the source texts noted on each one; line and
column fields are diagnostic data the parser never branches on. -/

/-- A token on line 1 (shorthand for concrete inputs). -/
def tk (t : TokenType) (l : String) : Token := ⟨t, l, 1, 0⟩

/-- `fn foo() { } fn foo() { }` — the same function defined twice. -/
def c1DupFnToks : List Token :=
  [tk .FN "fn", tk .IDENT "foo", tk .LPAREN "(", tk .RPAREN ")", tk .LBRACE "\x7b",
   tk .RBRACE "\x7d",
   tk .FN "fn", tk .IDENT "foo", tk .LPAREN "(", tk .RPAREN ")", tk .LBRACE "\x7b",
   tk .RBRACE "\x7d", tk .EOF ""]

/-- `greet("a"); fn greet() { }` — one captured argument, zero
declared parameters. -/
def c2ArityMismatchToks : List Token :=
  [tk .IDENT "greet", tk .LPAREN "(", tk .STRING "a", tk .RPAREN ")", tk .SEMICOLON ";",
   tk .FN "fn", tk .IDENT "greet", tk .LPAREN "(", tk .RPAREN ")",
   tk .LBRACE "\x7b", tk .RBRACE "\x7d", tk .EOF ""]

/-- `greet(1); fn greet(name: string) { }` — the captured integer does
not verify against the declared string parameter. -/
def c2TypeMismatchToks : List Token :=
  [tk .IDENT "greet", tk .LPAREN "(", tk .INT "1", tk .RPAREN ")", tk .SEMICOLON ";",
   tk .FN "fn", tk .IDENT "greet", tk .LPAREN "(", tk .IDENT "name", tk .COLON ":",
   tk .RAWTYPE "string", tk .RPAREN ")", tk .LBRACE "\x7b", tk .RBRACE "\x7d", tk .EOF ""]

/-- A parser state about to parse `fn greet(name: string) { }` while
the function table holds the `Defined=false` placeholder that an
earlier `greet("a")` call site recorded. -/
def c2WitnessState : PState :=
  { toks := [tk .LPAREN "(", tk .IDENT "name", tk .COLON ":", tk .RAWTYPE "string",
             tk .RPAREN ")", tk .LBRACE "\x7b", tk .RBRACE "\x7d", tk .EOF ""],
    curToken := tk .FN "fn", peekToken := tk .IDENT "greet",
    vars := [],
    fns := [("greet", .mk "greet" [] [] .void false [.stringLiteral "a"])] }

/-- The placeholder recorded by the `greet("a")` call site. -/
def c2WitnessPh : FnStatement := .mk "greet" [] [] .void false [.stringLiteral "a"]

/-- The declaration parsed from `c2WitnessState`. -/
def c2WitnessStmt : FnStatement := .mk "greet" [⟨"name", Ty.string⟩] [] .void false []

/-- The parser state after that declaration. -/
def c2WitnessState' : PState :=
  { toks := [], curToken := tk .RBRACE "\x7d", peekToken := tk .EOF "",
    vars := [], fns := [("greet", c2WitnessStmt)] }

/-- `fn add(a: int32, b: int32): int32 { var a: int32 = 10; }` — the
spec's no-return example. -/
def c3NoReturnToks : List Token :=
  [tk .FN "fn", tk .IDENT "add", tk .LPAREN "(", tk .IDENT "a", tk .COLON ":",
   tk .RAWTYPE "int32", tk .COMMA ",", tk .IDENT "b", tk .COLON ":",
   tk .RAWTYPE "int32", tk .RPAREN ")", tk .COLON ":", tk .RAWTYPE "int32",
   tk .LBRACE "\x7b", tk .VAR "var", tk .IDENT "a", tk .COLON ":", tk .RAWTYPE "int32",
   tk .ASSIGN "=", tk .INT "10", tk .SEMICOLON ";", tk .RBRACE "\x7d", tk .EOF ""]

/-- A parser state about to parse `fn one(): int32 { return 1; }`. -/
def c3WitnessState : PState :=
  { toks := [tk .LPAREN "(", tk .RPAREN ")", tk .COLON ":", tk .RAWTYPE "int32",
             tk .LBRACE "\x7b", tk .RETURN "return", tk .INT "1", tk .SEMICOLON ";",
             tk .RBRACE "\x7d", tk .EOF ""],
    curToken := tk .FN "fn", peekToken := tk .IDENT "one",
    vars := [], fns := [] }

/-- The declaration parsed from `c3WitnessState`. -/
def c3WitnessStmt : FnStatement :=
  .mk "one" [] [Node.returnS ⟨Ty.int32, Expression.integerLiteral 1⟩] Ty.int32 false []

/-- The parser state after that declaration. -/
def c3WitnessState' : PState :=
  { toks := [], curToken := tk .RBRACE "\x7d", peekToken := tk .EOF "",
    vars := [], fns := [("one", c3WitnessStmt)] }

/-- `var x = 1 + 2 * 3;`. -/
def c6Toks : List Token :=
  [tk .VAR "var", tk .IDENT "x", tk .ASSIGN "=", tk .INT "1", tk .PLUS "+",
   tk .INT "2", tk .STAR "*", tk .INT "3", tk .SEMICOLON ";", tk .EOF ""]

/-- `var x = y;` with `y` not bound in the variable table. -/
def c7Toks : List Token :=
  [tk .VAR "var", tk .IDENT "x", tk .ASSIGN "=", tk .IDENT "y",
   tk .SEMICOLON ";", tk .EOF ""]

/-- A file system holding a valid program under a path whose
extension is `.txt`, not the recognized `.lt`. -/
def c8Fs : String → Option String :=
  fun p => if p = "prog.txt" then some "var x = 1;" else none

/-- The token sequence of `var x = 1;`. -/
def c8VarToks : List Token :=
  [tk .VAR "var", tk .IDENT "x", tk .ASSIGN "=", tk .INT "1",
   tk .SEMICOLON ";", tk .EOF ""]

/-- The lexer collaborator on the single source text of `c8Fs`. -/
def c8Tokenize : String → List Token :=
  fun src => if src = "var x = 1;" then c8VarToks else [tk .EOF ""]

/-- `var x: int32 = ;` — the initializer position holds a token that
cannot begin an expression. -/
def c10Toks : List Token :=
  [tk .VAR "var", tk .IDENT "x", tk .COLON ":", tk .RAWTYPE "int32",
   tk .ASSIGN "=", tk .SEMICOLON ";", tk .EOF ""]

/-- A parser state whose current token is `;`. -/
def c10WitnessState : PState :=
  { toks := [], curToken := tk .SEMICOLON ";", peekToken := tk .EOF "",
    vars := [], fns := [] }

/-- `99999999999999999999` — twenty nines, above the int64 range. -/
def c9BigLiteral : String := "99999999999999999999"

/-! ## Theorems -/

/-- Characterization of `verifyInt32`: success coincides with the
structural rule whose infix-operator test is `strings.ContainsAny`. -/
theorem verifyInt32_none_iff : (e : Expression) →
    (verifyInt32 e = none ↔ int32CodeAccepts e = true)
  | .nilExp => by simp [verifyInt32, int32CodeAccepts]
  | .unboundedIdentifier v => by simp [verifyInt32, int32CodeAccepts, wrongTypeMsg]
  | .identifier v t => by
    by_cases h : t = Ty.int32 <;> simp [verifyInt32, int32CodeAccepts, h, wrongTypeMsg]
  | .stringLiteral v => by simp [verifyInt32, int32CodeAccepts, wrongTypeMsg]
  | .integerLiteral v => by simp [verifyInt32, int32CodeAccepts]
  | .floatLiteral v => by simp [verifyInt32, int32CodeAccepts, wrongTypeMsg]
  | .infixExpression l op r => by
    have ihl := verifyInt32_none_iff l
    have ihr := verifyInt32_none_iff r
    simp only [verifyInt32, int32CodeAccepts]
    cases hl : verifyInt32 l with
    | some e => simp [hl] at ihl; simp [← ihl]
    | none =>
      simp [hl] at ihl
      by_cases hop : containsAnyOf op ['+', '-', '*', '/'] = true
      · cases hr : verifyInt32 r with
        | some e => simp [hr] at ihr; simp [hop, ihl, hr, ihr]
        | none => simp [hr] at ihr; simp [hop, ihl, hr, ihr]
      · simp only [Bool.not_eq_true] at hop
        simp [hop, ihl]
  | .prefixExpression op r => by
    have ihr := verifyInt32_none_iff r
    simp only [verifyInt32, int32CodeAccepts]
    by_cases hop : (op = "~" || op = "++" || op = "--") = true
    · simp [hop]
    · simp only [Bool.not_eq_true] at hop
      cases hr : verifyInt32 r with
      | some e => simp [hr] at ihr; simp [hop, hr, ihr]
      | none => simp [hr] at ihr; simp [hop, hr, ihr]
  | .fnCall n ps => by simp [verifyInt32, int32CodeAccepts, wrongTypeMsg]

/-- Claim C4, counterexample: the infix expression `1 ++ 2` has an
operator that is not one of `+ - * /`, yet `Verify(Int32, ·)` accepts
it, because the code tests `strings.ContainsAny(op, "+-*/")` and the
string `++` contains the character `+`.  So acceptance is not
equivalent to the operator being one of the four operator strings. -/
theorem c4_counterexample :
    Ty.Verify Ty.int32
      (Expression.infixExpression (.integerLiteral 1) "++" (.integerLiteral 2)) = none
    ∧ int32SpecAccepts
      (Expression.infixExpression (.integerLiteral 1) "++" (.integerLiteral 2)) = false := by
  exact ⟨by decide, by decide⟩

/-- Claim C4 (amended): `Verify(Int32, e)` succeeds exactly when `e` is
an integer literal, an identifier stored as `Int32`, an infix
expression whose operator string contains at least one of the
characters `+ - * /` with both operands verifying, or a prefix
expression whose operator is not one of `~ ++ --` with the operand
verifying.  In particular `Verify(Int32, ~x)` and
`Verify(String, integer literal)` fail. -/
theorem c4_int32_rule :
    (∀ e : Expression, Ty.Verify Ty.int32 e = none ↔ int32CodeAccepts e = true)
    ∧ (∀ e : Expression,
        Ty.Verify Ty.int32 (.prefixExpression "~" e)
          = some "int32 allowed prefix operators: ~ ++ --")
    ∧ (∀ n : Int, Ty.Verify Ty.string (.integerLiteral n) = some wrongTypeMsg) :=
  ⟨fun e => verifyInt32_none_iff e,
   fun e => by simp [Ty.Verify, verifyInt32],
   fun n => rfl⟩

/-- Claim C4, witness: the amended rule evaluated at the literal 3. -/
theorem c4_witness :
    Ty.Verify Ty.int32 (Expression.integerLiteral 3) = none :=
  (c4_int32_rule.1 (Expression.integerLiteral 3)).mpr (by decide)

/-- Claim C5: `Verify(Void, e)` succeeds for every expression, and
`Verify(Float32, e)` fails with the generic wrong-type-assignment error
for every expression: the enumeration has `Float32` but `Verify` has no
structural rule for it. -/
theorem c5_void_float32 :
    ∀ e : Expression,
      Ty.Verify Ty.void e = none ∧ Ty.Verify Ty.float32 e = some wrongTypeMsg :=
  fun _ => ⟨rfl, rfl⟩

/-- Claim C5, witness: evaluated at a string literal. -/
theorem c5_witness :
    Ty.Verify Ty.void (Expression.stringLiteral "a") = none
    ∧ Ty.Verify Ty.float32 (Expression.stringLiteral "a") = some wrongTypeMsg :=
  c5_void_float32 (Expression.stringLiteral "a")

theorem nextToken_fns (s : PState) : (nextToken s).fns = s.fns := by
  unfold nextToken
  dsimp only
  split
  · rfl
  · split <;> rfl

theorem consumeOrFail_ok_fns {t : TokenType} {s s' : PState}
    (h : consumeOrFail t s = .ok s') : s'.fns = s.fns := by
  unfold consumeOrFail at h
  dsimp only at h
  split at h
  · injection h with h
    subst h
    exact nextToken_fns s
  · simp at h

/-- The argument-list loop only moves the token window: the function
table is untouched. -/
theorem parseFnArgsLoop_ok_fns :
    ∀ (fuel : Nat) (s : PState) (acc : List Argument) (args : List Argument) (s' : PState),
      parseFnArgsLoop fuel s acc = .ok (args, s') → s'.fns = s.fns := by
  intro fuel
  induction fuel with
  | zero => intro s acc args s' h; simp [parseFnArgsLoop] at h
  | succ n ih =>
    intro s acc args s' h
    rw [parseFnArgsLoop] at h
    dsimp only at h
    by_cases hrp : peekTokenIs .RPAREN s = true
    · rw [if_pos hrp] at h
      injection h with h
      cases h
      exact nextToken_fns s
    · rw [if_neg hrp] at h
      cases h1 : consumeOrFail .IDENT s with
      | error e => rw [h1] at h; exact absurd h (by simp)
      | ok s1 =>
        rw [h1] at h
        dsimp only at h
        cases h2 : consumeOrFail .COLON s1 with
        | error e => rw [h2] at h; exact absurd h (by simp)
        | ok s2 =>
          rw [h2] at h
          dsimp only at h
          cases h3 : consumeOrFail .RAWTYPE s2 with
          | error e => rw [h3] at h; exact absurd h (by simp)
          | ok s3 =>
            rw [h3] at h
            dsimp only at h
            cases h4 : getTypeFromLiteral s3.curToken.literal with
            | error e => rw [h4] at h; exact absurd h (by simp)
            | ok t =>
              rw [h4] at h
              dsimp only at h
              have e1 := consumeOrFail_ok_fns h1
              have e2 := consumeOrFail_ok_fns h2
              have e3 := consumeOrFail_ok_fns h3
              by_cases hrp2 : s3.peekToken.type = .RPAREN
              · rw [if_pos hrp2] at h
                injection h with h
                cases h
                rw [nextToken_fns, e3, e2, e1]
              · rw [if_neg hrp2] at h
                cases h5 : consumeOrFail .COMMA s3 with
                | error e => rw [h5] at h; exact absurd h (by simp)
                | ok s4 =>
                  rw [h5] at h
                  dsimp only at h
                  have e4 := consumeOrFail_ok_fns h5
                  rw [ih _ _ _ _ h, e4, e3, e2, e1]

/-- Without a `:` annotation the declared return type is the zero
value `Void`. -/
theorem parseOptReturnType_false {s s' : PState} {t : Ty}
    (h : parseOptReturnType s = .ok (false, t, s')) : t = .void := by
  unfold parseOptReturnType at h
  split at h
  · split at h
    · simp at h
    · split at h
      · simp at h
      · simp at h
  · injection h with h
    injection h with ha hb
    injection hb with hb hc
    exact hb.symm

/-- When return enforcement passes with `mustHaveReturn`, the body
ends in a `ReturnStatement` of the declared type. -/
theorem enforceReturn_true_none {body : List Node} {rt : Ty} {l c : Int}
    (h : enforceReturn true body rt l c = none) :
    ∃ r : ReturnStatement, body.getLast? = some (Node.returnS r) ∧ r.type = rt := by
  unfold enforceReturn at h
  simp only [if_true] at h
  cases hl : body.getLast? with
  | none => rw [hl] at h; simp at h
  | some nd =>
    rw [hl] at h
    cases nd with
    | returnS r =>
      dsimp only at h
      by_cases hty : r.type = rt
      · exact ⟨r, rfl, hty⟩
      · rw [if_pos hty] at h
        simp at h
    | varS v => simp at h
    | reassignS v => simp at h
    | fnS f => simp at h
    | callS e => simp at h

/-- Inversion of a successful `parseFnStatement`: the sequence of
steps it must have gone through. -/
theorem parseFnStatement_ok_inv {fuel : Nat} {s : PState} {stmt : FnStatement}
    {s' : PState} (h : parseFnStatement fuel s = .ok (stmt, s')) :
    ∃ (s1 s2 : PState) (args : List Argument) (s3 : PState) (mhr : Bool) (retTy : Ty)
      (s4 s5 : PState) (body : List Node) (s6 : PState),
      consumeOrFail .IDENT s = .ok s1 ∧
      fnAlreadyDefined s1.fns s1.curToken.literal = false ∧
      consumeOrFail .LPAREN s1 = .ok s2 ∧
      parseFnArgsLoop (fuel - 1) s2 [] = .ok (args, s3) ∧
      checkForwardRef s3.fns s1.curToken.literal args
        s3.curToken.line s3.curToken.column = none ∧
      parseOptReturnType s3 = .ok (mhr, retTy, s4) ∧
      consumeOrFail .LBRACE s4 = .ok s5 ∧
      parseFnBodyLoop (fuel - 1) retTy (nextToken s5) [] = .ok (body, s6) ∧
      enforceReturn mhr body retTy s6.curToken.line s6.curToken.column = none ∧
      stmt = .mk s1.curToken.literal args body retTy false [] := by
  cases fuel with
  | zero => simp [parseFnStatement] at h
  | succ n =>
    rw [parseFnStatement] at h
    dsimp only at h
    cases h1 : consumeOrFail .IDENT s with
    | error e => rw [h1] at h; exact absurd h (by simp)
    | ok s1 =>
      rw [h1] at h
      dsimp only at h
      by_cases hdef : fnAlreadyDefined s1.fns s1.curToken.literal = true
      · rw [if_pos hdef] at h; exact absurd h (by simp)
      · rw [if_neg hdef] at h
        cases h2 : consumeOrFail .LPAREN s1 with
        | error e => rw [h2] at h; exact absurd h (by simp)
        | ok s2 =>
          rw [h2] at h
          dsimp only at h
          cases h3 : parseFnArgsLoop n s2 [] with
          | error e => rw [h3] at h; exact absurd h (by simp)
          | ok pr =>
            obtain ⟨args, s3⟩ := pr
            rw [h3] at h
            dsimp only at h
            cases h4 : checkForwardRef s3.fns s1.curToken.literal args
                s3.curToken.line s3.curToken.column with
            | some e => rw [h4] at h; exact absurd h (by simp)
            | none =>
              rw [h4] at h
              dsimp only at h
              cases h5 : parseOptReturnType s3 with
              | error e => rw [h5] at h; exact absurd h (by simp)
              | ok tr =>
                obtain ⟨mhr, retTy, s4⟩ := tr
                rw [h5] at h
                dsimp only at h
                cases h6 : consumeOrFail .LBRACE s4 with
                | error e => rw [h6] at h; exact absurd h (by simp)
                | ok s5 =>
                  rw [h6] at h
                  dsimp only at h
                  cases h7 : parseFnBodyLoop n retTy (nextToken s5) [] with
                  | error e => rw [h7] at h; exact absurd h (by simp)
                  | ok br =>
                    obtain ⟨body, s6⟩ := br
                    rw [h7] at h
                    dsimp only at h
                    cases h8 : enforceReturn mhr body retTy
                        s6.curToken.line s6.curToken.column with
                    | some e => rw [h8] at h; exact absurd h (by simp)
                    | none =>
                      rw [h8] at h
                      dsimp only at h
                      injection h with h
                      injection h with hstmt hs
                      exact ⟨s1, s2, args, s3, mhr, retTy, s4, s5, body, s6,
                        rfl, Bool.not_eq_true _ ▸ hdef, h2, h3, h4, h5, h6, h7, h8,
                        hstmt.symm⟩

/-- Positional soundness of the reconciliation loop. -/
theorem verifyArgsAgainst_none_each {l c : Int} :
    ∀ (args : List Argument) (es : List Expression),
      verifyArgsAgainst l c args es = none →
      ∀ i, i < args.length →
        Ty.Verify (args.getD i defaultArgument).type (es.getD i Expression.nilExp) = none := by
  intro args
  induction args with
  | nil => intro es h i hi; simp at hi
  | cons a as ih =>
    intro es h i hi
    cases es with
    | nil => simp [verifyArgsAgainst] at h
    | cons e esT =>
      simp only [verifyArgsAgainst] at h
      cases hv : Ty.Verify a.type e with
      | some m => rw [hv] at h; simp at h
      | none =>
        rw [hv] at h
        dsimp only at h
        cases i with
        | zero => simpa using hv
        | succ j =>
          simp only [List.getD_cons_succ]
          exact ih esT h j (by simpa using hi)

/-- Claim C1: evaluation at the failing input `fn foo() { }` followed
by a second `fn foo() { }`.  The parse succeeds and both records carry
`Defined = false`: `parseFnStatement` never sets the flag, so the
"function already defined" rejection is unreachable and a duplicate
definition is accepted (with zero arguments the forward-reference
length check is vacuous). -/
theorem c1_duplicate_fn_accepted :
    ParseProgram 32 c1DupFnToks = .ok ⟨[
      Node.fnS (.mk "foo" [] [] .void false []),
      Node.fnS (.mk "foo" [] [] .void false [])]⟩ := rfl

/-- Claim C2: when `parseFnStatement` succeeds for a name recorded as
a `Defined=false` placeholder, the placeholder's captured expression
count equals the declared argument count and each captured expression
verifies against the declared argument type; and concretely, an arity
mismatch (`greet("a"); fn greet() { }`) and a captured-expression type
mismatch (`greet(1); fn greet(name: string) { }`) each abort the whole
parse with an error and no program. -/
theorem c2_forward_reference_checks :
    (∀ (fuel : Nat) (s : PState) (stmt : FnStatement) (s' : PState) (ph : FnStatement),
      parseFnStatement fuel s = .ok (stmt, s') →
      lookupA stmt.name s.fns = some ph →
      ph.defined = false →
      ph.expressionsToEvaluate.length = stmt.args.length ∧
      ∀ i, i < stmt.args.length →
        Ty.Verify (stmt.args.getD i defaultArgument).type
          (ph.expressionsToEvaluate.getD i Expression.nilExp) = none)
    ∧ ParseProgram 32 c2ArityMismatchToks
        = .error (.errParser 1 0
            "number of provided params do not match number of defined arguments")
    ∧ ParseProgram 32 c2TypeMismatchToks
        = .error (.errParser 1 0 "wrong type assignment") := by
  refine ⟨?_, rfl, rfl⟩
  intro fuel s stmt s' ph h hlook hd
  obtain ⟨s1, s2, args, s3, mhr, retTy, s4, s5, body, s6,
    h1, hdef, h2, h3, h4, h5, h6, h7, h8, hstmt⟩ := parseFnStatement_ok_inv h
  subst hstmt
  simp only [FnStatement.name] at hlook
  simp only [FnStatement.args]
  have f1 : s1.fns = s.fns := consumeOrFail_ok_fns h1
  have f2 : s2.fns = s1.fns := consumeOrFail_ok_fns h2
  have f3 : s3.fns = s2.fns := parseFnArgsLoop_ok_fns _ _ _ _ _ h3
  rw [f3, f2, f1] at h4
  unfold checkForwardRef at h4
  rw [hlook] at h4
  dsimp only at h4
  rw [hd] at h4
  simp only [Bool.false_eq_true, if_false] at h4
  by_cases hlen : ph.expressionsToEvaluate.length ≠ args.length
  · rw [if_pos hlen] at h4; simp at h4
  · rw [if_neg hlen] at h4
    push_neg at hlen
    exact ⟨hlen, verifyArgsAgainst_none_each args ph.expressionsToEvaluate h4⟩

/-- Claim C2, witness: `fn greet(name: string) { }` parsed while the
table holds the placeholder captured at `greet("a")`. -/
theorem c2_forward_reference_checks_witness :
    c2WitnessPh.expressionsToEvaluate.length = c2WitnessStmt.args.length ∧
    ∀ i, i < c2WitnessStmt.args.length →
      Ty.Verify (c2WitnessStmt.args.getD i defaultArgument).type
        (c2WitnessPh.expressionsToEvaluate.getD i Expression.nilExp) = none :=
  c2_forward_reference_checks.1 16 c2WitnessState c2WitnessStmt c2WitnessState'
    c2WitnessPh rfl rfl rfl

/-- Claim C3: a successful `parseFnStatement` whose declaration
carried a return type (equivalently, whose recorded return type is not
`Void`) has a non-empty body whose last statement is a
`ReturnStatement` of exactly the declared type; and concretely the
spec's example `fn add(a: int32, b: int32): int32 { var a: int32 = 10; }`
fails with the "function must have a return" error. -/
theorem c3_return_enforcement :
    (∀ (fuel : Nat) (s : PState) (stmt : FnStatement) (s' : PState),
      parseFnStatement fuel s = .ok (stmt, s') →
      stmt.returnType ≠ Ty.void →
      stmt.body ≠ [] ∧ ∃ r : ReturnStatement,
        stmt.body.getLast? = some (Node.returnS r) ∧ r.type = stmt.returnType)
    ∧ ParseProgram 32 c3NoReturnToks
        = .error (.errParser 1 0 "function must have a return") := by
  refine ⟨?_, rfl⟩
  intro fuel s stmt s' h hrt
  obtain ⟨s1, s2, args, s3, mhr, retTy, s4, s5, body, s6,
    h1, hdef, h2, h3, h4, h5, h6, h7, h8, hstmt⟩ := parseFnStatement_ok_inv h
  subst hstmt
  simp only [FnStatement.returnType, FnStatement.body] at hrt ⊢
  cases mhr with
  | false => exact absurd (parseOptReturnType_false h5) hrt
  | true =>
    obtain ⟨r, hlast, hty⟩ := enforceReturn_true_none h8
    refine ⟨?_, r, hlast, hty⟩
    intro hb
    rw [hb] at hlast
    simp at hlast

/-- Claim C3, witness: `fn one(): int32 { return 1; }`. -/
theorem c3_return_enforcement_witness :
    c3WitnessStmt.body ≠ [] ∧ ∃ r : ReturnStatement,
      c3WitnessStmt.body.getLast? = some (Node.returnS r)
      ∧ r.type = c3WitnessStmt.returnType :=
  c3_return_enforcement.1 16 c3WitnessState c3WitnessStmt c3WitnessState'
    rfl (by decide)

/-- Claim C6: `var x = 1 + 2 * 3;` parses to `x = 1 + (2 * 3)` — the
multiplicative operators bind tighter because the precedence table
maps `+ -` below `* /`. -/
theorem c6_precedence :
    ParseProgram 32 c6Toks = .ok ⟨[Node.varS
      { name := "x",
        value := Expression.infixExpression (Expression.integerLiteral 1) "+"
          (Expression.infixExpression (Expression.integerLiteral 2) "*"
            (Expression.integerLiteral 3)),
        type := Ty.void }]⟩
    ∧ precedenceOf .PLUS < precedenceOf .STAR
    ∧ precedenceOf .MINUS < precedenceOf .STAR
    ∧ precedenceOf .PLUS < precedenceOf .SLASH
    ∧ precedenceOf .MINUS < precedenceOf .SLASH :=
  ⟨rfl, by decide, by decide, by decide, by decide⟩

/-- Claim C7: evaluation at the failing input `var x = y;` with `y`
unbound.  The expression-position identifier branch reads
`varStmt.Name` off the nil pointer returned by the failed table
lookup, so parsing aborts with a runtime panic instead of producing an
`UnboundedIdentifier`. -/
theorem c7_unbound_identifier_panics :
    ParseProgram 32 c7Toks = .error (.goPanic nilDerefMsg) := rfl

/-- Claim C9: for every digit-run integer-literal token the literal
step is total (the conversion error is discarded), the stored value is
the clamped 64-bit value (at most `2^63 - 1`, and exactly that bound
whenever the conversion flagged a range error), and the emitted 32-bit
constant is the stored value reduced modulo `2^32`. -/
theorem c9_integer_literal_lowering (lit : String)
    (hne : lit.data ≠ []) (hdig : lit.data.all Char.isDigit) :
    parseIntegerLiteral lit = Expression.integerLiteral (goParseInt64 lit).1
    ∧ 0 ≤ (goParseInt64 lit).1
    ∧ (goParseInt64 lit).1 ≤ 2 ^ 63 - 1
    ∧ ((goParseInt64 lit).2 = true → (goParseInt64 lit).1 = 2 ^ 63 - 1)
    ∧ generateIntegerLiteralConst (goParseInt64 lit).1
        = ((goParseInt64 lit).1 % 2 ^ 32).toNat := by
  have hg : goParseInt64 lit =
      if digitsVal lit.data > 2 ^ 63 - 1 then ((2 : Int) ^ 63 - 1, true)
      else ((digitsVal lit.data : Int), false) := by
    unfold goParseInt64
    rw [if_pos ⟨hne, hdig⟩]
  refine ⟨rfl, ?_⟩
  by_cases hbig : digitsVal lit.data > 2 ^ 63 - 1
  · have hg2 : goParseInt64 lit = ((2 : Int) ^ 63 - 1, true) := by rw [hg, if_pos hbig]
    rw [hg2]
    dsimp only
    refine ⟨by norm_num, by norm_num, fun _ => rfl, ?_⟩
    unfold generateIntegerLiteralConst llvmConstIntI32 goUint64OfInt64
    norm_num
    omega
  · have hg2 : goParseInt64 lit = ((digitsVal lit.data : Int), false) := by
      rw [hg, if_neg hbig]
    rw [hg2]
    dsimp only
    push_neg at hbig
    have hb : digitsVal lit.data ≤ 9223372036854775807 := by
      have : (2 : Nat) ^ 63 - 1 = 9223372036854775807 := by norm_num
      omega
    refine ⟨by positivity, by norm_num; omega, ?_, ?_⟩
    · intro hfalse
      exact absurd hfalse (by simp)
    · unfold generateIntegerLiteralConst llvmConstIntI32 goUint64OfInt64
      have e64 : (2 : Int) ^ 64 = 18446744073709551616 := by norm_num
      have e32 : (2 : Int) ^ 32 = 4294967296 := by norm_num
      have e32n : (2 : Nat) ^ 32 = 4294967296 := by norm_num
      rw [e64, e32, e32n]
      omega

/-- Claim C9, witness: the out-of-range literal of twenty nines. -/
theorem c9_integer_literal_lowering_witness :
    parseIntegerLiteral c9BigLiteral
      = Expression.integerLiteral (goParseInt64 c9BigLiteral).1
    ∧ 0 ≤ (goParseInt64 c9BigLiteral).1
    ∧ (goParseInt64 c9BigLiteral).1 ≤ 2 ^ 63 - 1
    ∧ ((goParseInt64 c9BigLiteral).2 = true
        → (goParseInt64 c9BigLiteral).1 = 2 ^ 63 - 1)
    ∧ generateIntegerLiteralConst (goParseInt64 c9BigLiteral).1
        = ((goParseInt64 c9BigLiteral).1 % 2 ^ 32).toNat :=
  c9_integer_literal_lowering c9BigLiteral (by decide) (by decide)

/-- Claim C10: a current token that cannot begin an expression makes
`parseExpression` return a nil expression and no error with the state
unchanged — the `Verify` call is never reached — and consequently
`var x: int32 = ;` is accepted as a `VarStatement` with a nil value
despite its `int32` annotation. -/
theorem c10_nil_expression_accepted :
    (∀ (fuel prec : Nat) (tt : Ty) (s : PState),
      s.curToken.type ≠ .INT → s.curToken.type ≠ .STRING →
      s.curToken.type ≠ .FLOAT → s.curToken.type ≠ .IDENT →
      s.curToken.type ≠ .LPAREN →
      parseExpression (fuel + 1) prec tt s = .ok (.nilExp, s))
    ∧ ParseProgram 32 c10Toks = .ok ⟨[Node.varS
        { name := "x", value := Expression.nilExp, type := Ty.int32 }]⟩ := by
  refine ⟨?_, rfl⟩
  intro fuel prec tt s h1 h2 h3 h4 h5
  cases ht : s.curToken.type <;>
    first
      | exact absurd ht h1
      | exact absurd ht h2
      | exact absurd ht h3
      | exact absurd ht h4
      | exact absurd ht h5
      | rw [parseExpression, ht]

/-- Claim C10, witness: a state whose current token is `;`, with an
`int32` context that would fail verification were it consulted. -/
theorem c10_nil_expression_accepted_witness :
    parseExpression 1 1 Ty.int32 c10WitnessState
      = .ok (.nilExp, c10WitnessState) :=
  c10_nil_expression_accepted.1 0 1 Ty.int32 c10WitnessState
    (by decide) (by decide) (by decide) (by decide) (by decide)

/-- Claim C8, counterexample: `prog.txt` has extension `.txt`, which
`allowedExtensions` rejects, yet `main` reads the file's bytes and
carries the parsed program through to IR lowering and the output
artifact — no startup rejection happens, because main.go calls
`os.ReadFile` directly and never consults the extension gate. -/
theorem c8_counterexample :
    filepathExt "prog.txt" = ".txt"
    ∧ allowedExtensions ".txt" = false
    ∧ mainRun ["main", "prog.txt"] c8Fs c8Tokenize 32
        = .lowered ⟨[Node.varS
            { name := "x", value := Expression.integerLiteral 1, type := Ty.void }]⟩ :=
  ⟨rfl, rfl, rfl⟩

/-- Claim C8 (amended): `source.FromFile` rejects every path whose
extension is not `.lt` before consulting the file system — the error
is the same for every file system, so no byte is read; the program's
entry point, however, reads the source file without this check. -/
theorem c8_extension_gate :
    ∀ (path : String) (fs : String → Option String),
      allowedExtensions (filepathExt path) = false →
      FromFile fs path
        = .error ("file extension " ++ filepathExt path ++ " is not allowed") := by
  intro path fs h
  unfold FromFile
  dsimp only
  rw [if_neg (by simp [h])]

/-- Claim C8, witness: the gate evaluated at `prog.txt`. -/
theorem c8_extension_gate_witness :
    FromFile c8Fs "prog.txt" = .error "file extension .txt is not allowed" :=
  c8_extension_gate "prog.txt" c8Fs (by decide)

end Lotus
